import Mathlib

/-!
Shallow embedding of the power-bank rental backend (NameGifted/backend).

The repository contains several independent prototypes of the same service.
We embed the rental state-transition logic of each variant that the claims
reference:

* variant I — `src/app/__init__.py` (FastAPI, in-memory lists);
* variant F — `src/app/config.py` (FastAPI, stations carry a stored
  `powerbanks_available` counter);
* variant M — `src/run.py` (Flask monolith with `Payment` records);
* variant B — `src/app/rentals/routes.py` (Flask blueprint whose return
  endpoint takes no user identity).

Statuses are the literal strings used by the Python code
("available", "rented", "maintenance", "active", "completed", "pending").
Timestamps (`datetime.now()` / `datetime.utcnow()`) are modelled as a `Nat`
clock value passed to each operation.  Money amounts are modelled over `ℚ`.
-/

/-- Mutating the first element of a Python list that satisfies a predicate
(the `for ... if ...: mutate; break` / `next(...)` idiom used throughout the
source). -/
def updateFirst {α : Type} (p : α → Bool) (f : α → α) : List α → List α
  | [] => []
  | x :: xs => if p x then f x :: xs else x :: updateFirst p f xs

theorem updateFirst_eq_of_forall_neg {α : Type} (p : α → Bool) (f : α → α)
    {l : List α} (h : ∀ x ∈ l, p x = false) : updateFirst p f l = l := by
  induction l with
  | nil => rfl
  | cons x xs ih =>
    have hx : p x = false := h x (List.mem_cons_self x xs)
    simp only [updateFirst, hx, Bool.false_eq_true, if_false]
    exact congrArg (x :: ·) (ih fun y hy => h y (List.mem_cons_of_mem x hy))

theorem updateFirst_append_cons {α : Type} (p : α → Bool) (f : α → α)
    (l₁ l₂ : List α) (a : α) (h : ∀ x ∈ l₁, p x = false) (ha : p a = true) :
    updateFirst p f (l₁ ++ a :: l₂) = l₁ ++ f a :: l₂ := by
  induction l₁ with
  | nil => simp [updateFirst, ha]
  | cons x xs ih =>
    have hx : p x = false := h x (List.mem_cons_self x xs)
    simp only [List.cons_append, updateFirst, hx, Bool.false_eq_true, if_false]
    exact congrArg (x :: ·) (ih fun y hy => h y (List.mem_cons_of_mem x hy))

/-- A successful `find?` splits the list at the first match. -/
theorem find?_decomp {α : Type} {p : α → Bool} {l : List α} {a : α}
    (h : l.find? p = some a) :
    ∃ l₁ l₂, l = l₁ ++ a :: l₂ ∧ p a = true ∧ ∀ x ∈ l₁, p x = false := by
  induction l with
  | nil => simp [List.find?] at h
  | cons x xs ih =>
    by_cases hx : p x = true
    · rw [List.find?_cons_of_pos _ hx] at h
      injection h with h'
      subst h'
      exact ⟨[], xs, rfl, hx, by simp⟩
    · rw [List.find?_cons_of_neg _ hx] at h
      obtain ⟨l₁, l₂, hl, hpa, hneg⟩ := ih h
      refine ⟨x :: l₁, l₂, by rw [hl, List.cons_append], hpa, ?_⟩
      intro y hy
      rcases List.mem_cons.mp hy with rfl | hy'
      · exact Bool.not_eq_true _ ▸ eq_false_of_ne_true hx
      · exact hneg y hy'

/-- In a list whose keys are pairwise distinct, looking up by a predicate that
pins the key finds exactly the given member. -/
theorem find?_eq_of_nodup_key {α β : Type} [DecidableEq β] {g : α → β}
    {l : List α} (hnd : (l.map g).Nodup) {a : α} (ha : a ∈ l)
    (p : α → Bool) (hp : p a = true) (hkey : ∀ x, p x = true → g x = g a) :
    l.find? p = some a := by
  induction l with
  | nil => cases ha
  | cons x xs ih =>
    rw [List.map_cons, List.nodup_cons] at hnd
    rcases List.mem_cons.mp ha with rfl | ha'
    · exact List.find?_cons_of_pos _ hp
    · have hx : p x = false := by
        by_contra hcon
        have hx' : p x = true := Bool.not_eq_false _ ▸ hcon
        have : g x = g a := hkey x hx'
        exact hnd.1 (this ▸ List.mem_map_of_mem g ha')
      rw [List.find?_cons_of_neg _ (by simp [hx])]
      exact ih hnd.2 ha'

/-- Keys on both sides of a decomposition differ from the pivot's key when the
key list is duplicate-free. -/
theorem nodup_key_of_decomp {α β : Type} {g : α → β} {l₁ l₂ : List α} {a : α}
    (h : (((l₁ ++ a :: l₂).map g)).Nodup) :
    (∀ x ∈ l₁, g x ≠ g a) ∧ ∀ x ∈ l₂, g x ≠ g a := by
  rw [List.map_append, List.nodup_append] at h
  obtain ⟨h₁, h₂, hdisj⟩ := h
  rw [List.map_cons, List.nodup_cons] at h₂
  constructor
  · intro x hx heq
    exact hdisj (List.mem_map_of_mem g hx) (by simp [heq])
  · intro x hx heq
    exact h₂.1 (heq ▸ List.mem_map_of_mem g hx)

theorem countP_append_cons {α : Type} (p : α → Bool) (l₁ l₂ : List α) (a : α) :
    (l₁ ++ a :: l₂).countP p =
      l₁.countP p + l₂.countP p + (if p a then 1 else 0) := by
  by_cases hp : p a
  · simp [List.countP_append, List.countP_cons, hp]
    omega
  · simp [List.countP_append, List.countP_cons, hp]

/-! ## Variant I — `src/app/__init__.py` (FastAPI, in-memory)

State: the module-level lists `powerbanks_db` and `rentals_db`.  The
`users_db` and `stations_db` lists are never modified by the two rental
operations and carry no data those operations read beyond the caller's
`user_id`, which we pass as a parameter. -/

structure IPowerBank where
  id : Nat
  station_id : Nat
  status : String
deriving DecidableEq

structure IRental where
  id : Nat
  user_id : Nat
  powerbank_id : Nat
  start_time : Nat
  end_time : Option Nat
  status : String
deriving DecidableEq

structure IState where
  powerbanks : List IPowerBank
  rentals : List IRental
deriving DecidableEq

/-- `POST /rentals` (`create_rental`, `src/app/__init__.py` lines 117-140).
Finds the first power bank with the requested id that is `"available"`
(one combined check in the Python loop); on failure answers HTTP 400 with the
state untouched (modelled as `none`).  On success it appends a new rental with
id `len(rentals_db)+1`, `status="active"`, `start_time=now`, no end time, and
flips the power bank to `"rented"`. -/
def createRental (uid pbid now : Nat) (s : IState) : Option IRental × IState :=
  match s.powerbanks.find? (fun pb => pb.id == pbid && pb.status == "available") with
  | none => (none, s)
  | some _ =>
    let newRental : IRental :=
      ⟨s.rentals.length + 1, uid, pbid, now, none, "active"⟩
    (some newRental,
     { powerbanks :=
         updateFirst (fun pb => pb.id == pbid && pb.status == "available")
           (fun pb => { pb with status := "rented" }) s.powerbanks,
       rentals := s.rentals ++ [newRental] })

/-- `PUT /rentals/{rental_id}/return` (`return_powerbank`,
`src/app/__init__.py` lines 142-155).  The Python loop completes the first
rental matching id, caller and `"active"` status, then flips the first power
bank with the rental's `powerbank_id` back to `"available"`; if no rental
matches it answers HTTP 400 with the state untouched (modelled as `none`). -/
def returnPowerbankI (uid rid now : Nat) (s : IState) : Option IRental × IState :=
  match s.rentals.find?
      (fun r => r.id == rid && r.user_id == uid && r.status == "active") with
  | none => (none, s)
  | some r =>
    (some { r with end_time := some now, status := "completed" },
     { powerbanks :=
         updateFirst (fun pb => pb.id == r.powerbank_id)
           (fun pb => { pb with status := "available" }) s.powerbanks,
       rentals :=
         updateFirst
           (fun q => q.id == rid && q.user_id == uid && q.status == "active")
           (fun q => { q with end_time := some now, status := "completed" })
           s.rentals })

/-- Number of `"active"` rentals that reference the power bank `pbid`. -/
def activeCount (rs : List IRental) (pbid : Nat) : Nat :=
  rs.countP (fun r => r.powerbank_id == pbid && r.status == "active")

/-- The invariant claimed by the spec: a power bank is `"rented"` iff exactly
one active rental references it. -/
def rentedIffOneActive (s : IState) : Prop :=
  ∀ pb ∈ s.powerbanks, (pb.status = "rented" ↔ activeCount s.rentals pb.id = 1)

/-- Strengthened (inductive) form of the invariant, together with
duplicate-freeness of power-bank ids. -/
def ledgerInv (s : IState) : Prop :=
  (s.powerbanks.map (·.id)).Nodup ∧
    ∀ pb ∈ s.powerbanks,
      activeCount s.rentals pb.id = if pb.status = "rented" then 1 else 0

/-- The seed data of `src/app/__init__.py` (lines 56-60): two available power
banks at station 1 and no rentals. -/
def initStateI : IState :=
  { powerbanks := [⟨1, 1, "available"⟩, ⟨2, 1, "available"⟩], rentals := [] }

/-- States reachable from the module's seed data through the two rental
operations of `src/app/__init__.py`. -/
inductive ReachableI : IState → Prop
  | init : ReachableI initStateI
  | start (uid pbid now : Nat) {s : IState} :
      ReachableI s → ReachableI (createRental uid pbid now s).2
  | ret (uid rid now : Nat) {s : IState} :
      ReachableI s → ReachableI (returnPowerbankI uid rid now s).2

theorem activeCount_append_active (rs : List IRental) (n uid pbid t x : Nat) :
    activeCount (rs ++ [⟨n, uid, pbid, t, none, "active"⟩]) x
      = activeCount rs x + (if pbid = x then 1 else 0) := by
  unfold activeCount
  rw [List.countP_append]
  by_cases hx : pbid = x
  · simp [List.countP_cons, hx]
  · simp [List.countP_cons, hx]

theorem activeCount_complete_first (m₁ m₂ : List IRental) (r0 : IRental)
    (hact : r0.status = "active") (e : Option Nat) (x : Nat) :
    activeCount (m₁ ++ r0 :: m₂) x
      = activeCount (m₁ ++ { r0 with end_time := e, status := "completed" } :: m₂) x
        + (if r0.powerbank_id = x then 1 else 0) := by
  unfold activeCount
  rw [countP_append_cons, countP_append_cons]
  by_cases hx : r0.powerbank_id = x
  · simp [hx, hact]
  · simp [hx]

theorem ledgerInv_createRental (uid pbid now : Nat) (s : IState)
    (h : ledgerInv s) : ledgerInv (createRental uid pbid now s).2 := by
  cases hfind : s.powerbanks.find?
      (fun pb => pb.id == pbid && pb.status == "available") with
  | none => simp only [createRental, hfind]; exact h
  | some pb0 =>
    obtain ⟨l₁, l₂, hl, hpa, hneg⟩ := find?_decomp hfind
    have hid0 : pb0.id = pbid := by
      have := hpa
      simp only [Bool.and_eq_true, beq_iff_eq] at this
      exact this.1
    have hav0 : pb0.status = "available" := by
      have := hpa
      simp only [Bool.and_eq_true, beq_iff_eq] at this
      exact this.2
    have hnd := h.1
    rw [hl] at hnd
    obtain ⟨hne₁, hne₂⟩ := nodup_key_of_decomp (g := fun pb : IPowerBank => pb.id) hnd
    have hupd : updateFirst (fun pb => pb.id == pbid && pb.status == "available")
        (fun pb => { pb with status := "rented" }) s.powerbanks
        = l₁ ++ { pb0 with status := "rented" } :: l₂ := by
      rw [hl]; exact updateFirst_append_cons _ _ _ _ _ hneg hpa
    simp only [createRental, hfind, ledgerInv]
    rw [hupd]
    refine ⟨?_, ?_⟩
    · have hmap : (l₁ ++ ({ pb0 with status := "rented" } : IPowerBank) :: l₂).map (·.id)
          = (l₁ ++ pb0 :: l₂).map (·.id) := by simp
      rw [hmap]; exact hnd
    · intro pb hpb
      rw [activeCount_append_active]
      rcases List.mem_append.mp hpb with hmem | hmem
      · have hpbmem : pb ∈ s.powerbanks := by
          rw [hl]; exact List.mem_append_left _ hmem
        have hid : pbid ≠ pb.id := fun hh => hne₁ pb hmem (by rw [hid0, hh])
        rw [if_neg hid, Nat.add_zero]
        exact h.2 pb hpbmem
      · rcases List.mem_cons.mp hmem with rfl | hmem'
        · have h0 : activeCount s.rentals pb0.id = 0 := by
            have := h.2 pb0 (by rw [hl]; exact List.mem_append_right _ (List.mem_cons_self _ _))
            simpa [hav0] using this
          simp only [hid0] at h0 ⊢
          simp [h0]
        · have hpbmem : pb ∈ s.powerbanks := by
            rw [hl]; exact List.mem_append_right _ (List.mem_cons_of_mem _ hmem')
          have hid : pbid ≠ pb.id := fun hh => hne₂ pb hmem' (by rw [hid0, hh])
          rw [if_neg hid, Nat.add_zero]
          exact h.2 pb hpbmem

theorem ledgerInv_returnPowerbank (uid rid now : Nat) (s : IState)
    (h : ledgerInv s) : ledgerInv (returnPowerbankI uid rid now s).2 := by
  cases hfind : s.rentals.find?
      (fun r => r.id == rid && r.user_id == uid && r.status == "active") with
  | none => simp only [returnPowerbankI, hfind]; exact h
  | some r0 =>
    obtain ⟨m₁, m₂, hm, hqa, hqneg⟩ := find?_decomp hfind
    have hact : r0.status = "active" := by
      have := hqa
      simp only [Bool.and_eq_true, beq_iff_eq] at this
      exact this.2
    have hrupd : updateFirst
        (fun q => q.id == rid && q.user_id == uid && q.status == "active")
        (fun q => { q with end_time := some now, status := "completed" }) s.rentals
        = m₁ ++ { r0 with end_time := some now, status := "completed" } :: m₂ := by
      rw [hm]; exact updateFirst_append_cons _ _ _ _ _ hqneg hqa
    have hcnt : ∀ x, activeCount s.rentals x
        = activeCount (m₁ ++ { r0 with end_time := some now, status := "completed" } :: m₂) x
          + (if r0.powerbank_id = x then 1 else 0) := by
      intro x; rw [hm]
      exact activeCount_complete_first m₁ m₂ r0 hact (some now) x
    simp only [returnPowerbankI, hfind, ledgerInv]
    rw [hrupd]
    cases hpb : s.powerbanks.find? (fun pb => pb.id == r0.powerbank_id) with
    | none =>
      have hnone : ∀ pb ∈ s.powerbanks,
          (fun pb => pb.id == r0.powerbank_id) pb = false := by
        intro pb hmem
        have := List.find?_eq_none.mp hpb pb hmem
        simpa using this
      rw [updateFirst_eq_of_forall_neg _ _ hnone]
      refine ⟨h.1, ?_⟩
      intro pb hmem
      have hid : r0.powerbank_id ≠ pb.id := by
        have := hnone pb hmem
        simp only [beq_eq_false_iff_ne] at this
        exact fun hh => this hh.symm
      have := h.2 pb hmem
      rw [hcnt pb.id, if_neg hid, Nat.add_zero] at this
      exact this
    | some pbX =>
      obtain ⟨k₁, k₂, hk, hka, hkneg⟩ := find?_decomp hpb
      have hidX : pbX.id = r0.powerbank_id := by simpa using hka
      have hndp := h.1
      rw [hk] at hndp
      obtain ⟨hpne₁, hpne₂⟩ := nodup_key_of_decomp (g := fun pb : IPowerBank => pb.id) hndp
      have hpupd : updateFirst (fun pb => pb.id == r0.powerbank_id)
          (fun pb => { pb with status := "available" }) s.powerbanks
          = k₁ ++ { pbX with status := "available" } :: k₂ := by
        rw [hk]; exact updateFirst_append_cons _ _ _ _ _ hkneg hka
      rw [hpupd]
      refine ⟨?_, ?_⟩
      · have hmap : (k₁ ++ ({ pbX with status := "available" } : IPowerBank) :: k₂).map (·.id)
            = (k₁ ++ pbX :: k₂).map (·.id) := by simp
        rw [hmap]; exact hndp
      · intro pb hmem
        rcases List.mem_append.mp hmem with hmem' | hmem'
        · have hpbmem : pb ∈ s.powerbanks := by
            rw [hk]; exact List.mem_append_left _ hmem'
          have hid : r0.powerbank_id ≠ pb.id := by
            intro hh
            exact hpne₁ pb hmem' (by rw [hidX, hh])
          have := h.2 pb hpbmem
          rw [hcnt pb.id, if_neg hid, Nat.add_zero] at this
          exact this
        · rcases List.mem_cons.mp hmem' with rfl | hmem''
          · have hXmem : pbX ∈ s.powerbanks := by
              rw [hk]; exact List.mem_append_right _ (List.mem_cons_self _ _)
            have hXcnt := h.2 pbX hXmem
            have hge : 0 < activeCount s.rentals pbX.id := by
              unfold activeCount
              rw [List.countP_pos_iff]
              refine ⟨r0, ?_, by simp [hidX, hact]⟩
              rw [hm]
              exact List.mem_append_right _ (List.mem_cons_self _ _)
            have hr1 : activeCount s.rentals pbX.id = 1 := by
              by_cases hst : pbX.status = "rented"
              · rw [hst] at hXcnt; simpa using hXcnt
              · rw [if_neg hst] at hXcnt; omega
            have hc := hcnt pbX.id
            rw [hr1, if_pos hidX.symm] at hc
            change activeCount _ pbX.id = if ("available" : String) = "rented" then 1 else 0
            rw [if_neg (by decide)]
            omega
          · have hpbmem : pb ∈ s.powerbanks := by
              rw [hk]; exact List.mem_append_right _ (List.mem_cons_of_mem _ hmem'')
            have hid : r0.powerbank_id ≠ pb.id := by
              intro hh
              exact hpne₂ pb hmem'' (by rw [hidX, hh])
            have := h.2 pb hpbmem
            rw [hcnt pb.id, if_neg hid, Nat.add_zero] at this
            exact this

theorem rentedIffOneActive_of_ledgerInv {s : IState} (h : ledgerInv s) :
    rentedIffOneActive s := by
  intro pb hpb
  have hc := h.2 pb hpb
  constructor
  · intro hst; rw [hst] at hc; simpa using hc
  · intro hcnt
    by_contra hst
    rw [if_neg hst] at hc
    omega

theorem reachableI_ledgerInv {s : IState} (h : ReachableI s) : ledgerInv s := by
  induction h with
  | init =>
    constructor
    · decide
    · intro pb hpb
      fin_cases hpb <;> decide
  | start uid pbid now _ ih => exact ledgerInv_createRental uid pbid now _ ih
  | ret uid rid now _ ih => exact ledgerInv_returnPowerbank uid rid now _ ih

/-- Claim C1: in every state of `src/app/__init__.py` reachable from the seed
data, a power bank has status `"rented"` if and only if exactly one rental
with status `"active"` references it, and the biconditional still holds after
any further `create_rental` (StartRental) or `return_powerbank`
(ReturnRental) call from that state. -/
theorem rented_iff_unique_active_rental (s : IState) (h : ReachableI s) :
    rentedIffOneActive s ∧
      (∀ uid pbid now, rentedIffOneActive (createRental uid pbid now s).2) ∧
      (∀ uid rid now, rentedIffOneActive (returnPowerbankI uid rid now s).2) := by
  refine ⟨rentedIffOneActive_of_ledgerInv (reachableI_ledgerInv h), ?_, ?_⟩
  · intro uid pbid now
    exact rentedIffOneActive_of_ledgerInv
      (ledgerInv_createRental uid pbid now s (reachableI_ledgerInv h))
  · intro uid rid now
    exact rentedIffOneActive_of_ledgerInv
      (ledgerInv_returnPowerbank uid rid now s (reachableI_ledgerInv h))

/-- Concrete instantiation of the C1 theorem: the state reached by renting
power bank 1 from the seed data satisfies the invariant and keeps satisfying
it under both operations. -/
theorem rented_iff_unique_active_rental_witness :
    ReachableI (createRental 1 1 5 initStateI).2 ∧
      rentedIffOneActive (createRental 1 1 5 initStateI).2 :=
  ⟨ReachableI.start 1 1 5 ReachableI.init,
   (rented_iff_unique_active_rental (createRental 1 1 5 initStateI).2
     (ReachableI.start 1 1 5 ReachableI.init)).1⟩

/-! ## Variant M — `src/run.py` (Flask monolith)

State: the `Station`, `PowerBank`, `Rental` and `Payment` tables.  Only the
columns the rental endpoints read or write are modelled; SQLAlchemy's
autoincrement primary keys become explicit `next…Id` counters.  An unhandled
exception (attribute access on a missing row) aborts the request before
`db.session.commit()`, so it leaves the state unchanged. -/

structure MStation where
  id : Nat
deriving DecidableEq

structure MPowerBank where
  id : Nat
  station_id : Nat
  status : String
deriving DecidableEq

structure MRental where
  id : Nat
  user_id : Nat
  power_bank_id : Nat
  rent_time : Nat
  return_time : Option Nat
  status : String
deriving DecidableEq

structure MPayment where
  id : Nat
  rental_id : Nat
  amount : ℚ
  status : String
deriving DecidableEq

structure MState where
  stations : List MStation
  powerbanks : List MPowerBank
  rentals : List MRental
  payments : List MPayment
  nextRentalId : Nat
  nextPaymentId : Nat
deriving DecidableEq

inductive MRentResult
  /-- HTTP 201 with the new rental id. -/
  | ok (rentalId : Nat)
  /-- HTTP 400 `'Power bank not available'` (missing or wrong status). -/
  | notAvailable
  /-- HTTP 400 `'You already have an active rental'`. -/
  | alreadyRenting
deriving DecidableEq

inductive MReturnResult
  /-- HTTP 200 with the new payment id. -/
  | ok (paymentId : Nat)
  /-- HTTP 400 `'Invalid rental'` (missing, not the caller's, or not active). -/
  | invalidRental
  /-- Unhandled `AttributeError` on a missing power bank row (HTTP 500);
  nothing was committed. -/
  | serverError
deriving DecidableEq

/-- `POST /rent` (`rent_powerbank`, `src/run.py` lines 160-181). -/
def mRentPowerbank (uid pbid now : Nat) (s : MState) : MRentResult × MState :=
  match s.powerbanks.find? (fun pb => pb.id == pbid) with
  | none => (.notAvailable, s)
  | some pb =>
    if pb.status ≠ "available" then (.notAvailable, s)
    else
      match s.rentals.find? (fun r => r.user_id == uid && r.status == "active") with
      | some _ => (.alreadyRenting, s)
      | none =>
        let newRental : MRental := ⟨s.nextRentalId, uid, pbid, now, none, "active"⟩
        (.ok newRental.id,
         { s with
             powerbanks := updateFirst (fun q => q.id == pbid)
               (fun q => { q with status := "rented" }) s.powerbanks,
             rentals := s.rentals ++ [newRental],
             nextRentalId := s.nextRentalId + 1 })

/-- The pricing rule of `src/run.py` lines 202-203: the rental duration in
seconds is converted to hours and charged at $1 per hour. -/
def mPricing (durationSeconds : ℚ) : ℚ := durationSeconds / 3600 * 1

/-- `POST /return` (`return_powerbank`, `src/run.py` lines 183-208).  The
caller-supplied `station_id` is written to the power bank unconditionally;
a pending `Payment` of `mPricing (return_time - rent_time)` is inserted. -/
def mReturnPowerbank (uid rid stid now : Nat) (s : MState) : MReturnResult × MState :=
  match s.rentals.find? (fun r => r.id == rid) with
  | none => (.invalidRental, s)
  | some r =>
    if r.user_id ≠ uid ∨ r.status ≠ "active" then (.invalidRental, s)
    else
      match s.powerbanks.find? (fun pb => pb.id == r.power_bank_id) with
      | none => (.serverError, s)
      | some _ =>
        let payment : MPayment :=
          ⟨s.nextPaymentId, rid, mPricing ((now : ℚ) - (r.rent_time : ℚ)), "pending"⟩
        (.ok payment.id,
         { s with
             powerbanks := updateFirst (fun pb => pb.id == r.power_bank_id)
               (fun pb => { pb with status := "available", station_id := stid })
               s.powerbanks,
             rentals := updateFirst (fun q => q.id == rid)
               (fun q => { q with return_time := some now, status := "completed" })
               s.rentals,
             payments := s.payments ++ [payment],
             nextPaymentId := s.nextPaymentId + 1 })

/-- Claim C2: renting a power bank whose status is `"rented"` or
`"maintenance"` answers the 400 `'Power bank not available'` error and
returns the state completely unchanged. -/
theorem rent_unavailable_fails_unchanged (uid pbid now : Nat) (s : MState)
    (pb : MPowerBank) (hnd : (s.powerbanks.map (·.id)).Nodup)
    (hmem : pb ∈ s.powerbanks) (hid : pb.id = pbid)
    (hst : pb.status = "rented" ∨ pb.status = "maintenance") :
    mRentPowerbank uid pbid now s = (.notAvailable, s) := by
  have hfind : s.powerbanks.find? (fun q => q.id == pbid) = some pb := by
    refine find?_eq_of_nodup_key (g := fun q : MPowerBank => q.id) hnd hmem _
      (by simp [hid]) ?_
    intro x hx
    simp only [beq_iff_eq] at hx
    show x.id = pb.id
    rw [hx, hid]
  have hne : pb.status ≠ "available" := by
    rcases hst with h | h <;> rw [h] <;> decide
  simp [mRentPowerbank, hfind, hne]

/-- Witness for C2 at a concrete state: one rented power bank. -/
theorem rent_unavailable_fails_unchanged_witness :
    mRentPowerbank 1 1 50
        ⟨[⟨1⟩], [⟨1, 1, "rented"⟩], [], [], 1, 1⟩
      = (.notAvailable, ⟨[⟨1⟩], [⟨1, 1, "rented"⟩], [], [], 1, 1⟩) :=
  rent_unavailable_fails_unchanged 1 1 50 _ ⟨1, 1, "rented"⟩
    (by decide) (by decide) rfl (Or.inl rfl)

theorem mRental_find_by_id (rid : Nat) (s : MState) (r : MRental)
    (hnd : (s.rentals.map (·.id)).Nodup) (hmem : r ∈ s.rentals)
    (hid : r.id = rid) :
    s.rentals.find? (fun q => q.id == rid) = some r := by
  refine find?_eq_of_nodup_key (g := fun q : MRental => q.id) hnd hmem _
    (by simp [hid]) ?_
  intro x hx
  simp only [beq_iff_eq] at hx
  show x.id = r.id
  rw [hx, hid]

/-- Claim C4 (amended): in `src/run.py`, returning someone else's rental
fails with the generic 400 `'Invalid rental'` answer and the state is
returned completely unchanged. -/
theorem return_wrong_user_fails_unchanged (uid rid stid now : Nat) (s : MState)
    (r : MRental) (hnd : (s.rentals.map (·.id)).Nodup)
    (hmem : r ∈ s.rentals) (hid : r.id = rid) (howner : r.user_id ≠ uid) :
    mReturnPowerbank uid rid stid now s = (.invalidRental, s) := by
  have hfind := mRental_find_by_id rid s r hnd hmem hid
  simp only [mReturnPowerbank, hfind]
  rw [if_pos (Or.inl howner)]

/-- Witness for the amended C4: user 2 cannot return user 1's active
rental. -/
theorem return_wrong_user_fails_unchanged_witness :
    mReturnPowerbank 2 1 1 60
        ⟨[⟨1⟩], [⟨1, 1, "rented"⟩], [⟨1, 1, 1, 0, none, "active"⟩], [], 2, 1⟩
      = (.invalidRental,
         ⟨[⟨1⟩], [⟨1, 1, "rented"⟩], [⟨1, 1, 1, 0, none, "active"⟩], [], 2, 1⟩) :=
  return_wrong_user_fails_unchanged 2 1 1 60 _ ⟨1, 1, 1, 0, none, "active"⟩
    (by decide) (by decide) rfl (by decide)

/-- Claim C7: a successful return in `src/run.py` appends exactly one new
`Payment`, whose amount is the pricing function applied to the rental's
duration `now - rent_time` (the `end_time` being set to `now` by the same
call), and the number of payments referencing the rental grows by exactly
one. -/
theorem return_emits_one_priced_payment (uid rid stid now : Nat) (s : MState)
    (r : MRental) (hnd : (s.rentals.map (·.id)).Nodup)
    (hmem : r ∈ s.rentals) (hid : r.id = rid) (howner : r.user_id = uid)
    (hact : r.status = "active")
    (hpb : ∃ pb ∈ s.powerbanks, pb.id = r.power_bank_id) :
    (mReturnPowerbank uid rid stid now s).1 = .ok s.nextPaymentId ∧
    (mReturnPowerbank uid rid stid now s).2.payments
      = s.payments
          ++ [⟨s.nextPaymentId, rid, mPricing ((now : ℚ) - (r.rent_time : ℚ)),
               "pending"⟩] ∧
    (mReturnPowerbank uid rid stid now s).2.payments.countP
        (fun p => p.rental_id == rid)
      = s.payments.countP (fun p => p.rental_id == rid) + 1 := by
  have hfind := mRental_find_by_id rid s r hnd hmem hid
  obtain ⟨pb, hpbmem, hpbid⟩ := hpb
  have hpbfind : (s.powerbanks.find? (fun q => q.id == r.power_bank_id)).isSome := by
    rw [List.find?_isSome]
    exact ⟨pb, hpbmem, by simp [hpbid]⟩
  obtain ⟨pbX, hpbX⟩ := Option.isSome_iff_exists.mp hpbfind
  have hcond : ¬(r.user_id ≠ uid ∨ r.status ≠ "active") := by
    push_neg
    exact ⟨howner, hact⟩
  simp only [mReturnPowerbank, hfind, if_neg hcond, hpbX]
  refine ⟨trivial, trivial, ?_⟩
  rw [List.countP_append]
  simp [List.countP_cons]

/-- Witness for C7: returning a two-hour rental yields one pending payment
of 2 dollars. -/
theorem return_emits_one_priced_payment_witness :
    (mReturnPowerbank 1 1 1 7200
        ⟨[⟨1⟩], [⟨1, 1, "rented"⟩], [⟨1, 1, 1, 0, none, "active"⟩], [], 2, 1⟩).2.payments
      = [⟨1, 1, mPricing ((7200 : ℚ) - (0 : ℚ)), "pending"⟩] :=
  (return_emits_one_priced_payment 1 1 1 7200 _ ⟨1, 1, 1, 0, none, "active"⟩
    (by decide) (by decide) rfl rfl rfl
    ⟨⟨1, 1, "rented"⟩, by decide, rfl⟩).2.1

/-- Claim C10: a successful return in `src/run.py` stores the caller-supplied
`station_id` on the power bank without checking that such a station exists,
so the returned power bank can reference a station id matching no station. -/
theorem return_sets_unchecked_station (uid rid stid now : Nat) (s : MState)
    (r : MRental) (hnd : (s.rentals.map (·.id)).Nodup)
    (hmem : r ∈ s.rentals) (hid : r.id = rid) (howner : r.user_id = uid)
    (hact : r.status = "active")
    (hpb : ∃ pb ∈ s.powerbanks, pb.id = r.power_bank_id)
    (hnost : ∀ st ∈ s.stations, st.id ≠ stid) :
    (∃ pid, (mReturnPowerbank uid rid stid now s).1 = .ok pid) ∧
    (mReturnPowerbank uid rid stid now s).2.stations = s.stations ∧
    ∃ pb' ∈ (mReturnPowerbank uid rid stid now s).2.powerbanks,
      pb'.id = r.power_bank_id ∧ pb'.station_id = stid ∧
      ∀ st ∈ (mReturnPowerbank uid rid stid now s).2.stations,
        st.id ≠ pb'.station_id := by
  have hfind := mRental_find_by_id rid s r hnd hmem hid
  obtain ⟨pb, hpbmem, hpbid⟩ := hpb
  have hpbfind : (s.powerbanks.find? (fun q => q.id == r.power_bank_id)).isSome := by
    rw [List.find?_isSome]
    exact ⟨pb, hpbmem, by simp [hpbid]⟩
  obtain ⟨pbX, hpbX⟩ := Option.isSome_iff_exists.mp hpbfind
  obtain ⟨k₁, k₂, hk, hka, hkneg⟩ := find?_decomp hpbX
  have hidX : pbX.id = r.power_bank_id := by simpa using hka
  have hcond : ¬(r.user_id ≠ uid ∨ r.status ≠ "active") := by
    push_neg
    exact ⟨howner, hact⟩
  have hupd : updateFirst (fun q => q.id == r.power_bank_id)
      (fun q => { q with status := "available", station_id := stid }) s.powerbanks
      = k₁ ++ { pbX with status := "available", station_id := stid } :: k₂ := by
    rw [hk]; exact updateFirst_append_cons _ _ _ _ _ hkneg hka
  simp only [mReturnPowerbank, hfind, if_neg hcond, hpbX]
  refine ⟨⟨s.nextPaymentId, rfl⟩, trivial, ?_⟩
  refine ⟨{ pbX with status := "available", station_id := stid }, ?_, hidX, rfl, ?_⟩
  · rw [hupd]
    exact List.mem_append_right _ (List.mem_cons_self _ _)
  · intro st hst
    exact hnost st hst

/-- Witness for C10: returning to the nonexistent station 99 leaves the
power bank pointing at station 99 while the station table still only holds
station 1. -/
theorem return_sets_unchecked_station_witness :
    (mReturnPowerbank 1 1 99 60
        ⟨[⟨1⟩], [⟨1, 1, "rented"⟩], [⟨1, 1, 1, 0, none, "active"⟩], [], 2, 1⟩).2.stations
      = [⟨1⟩] ∧
    ∃ pb' ∈ (mReturnPowerbank 1 1 99 60
        ⟨[⟨1⟩], [⟨1, 1, "rented"⟩], [⟨1, 1, 1, 0, none, "active"⟩], [], 2, 1⟩).2.powerbanks,
      pb'.id = 1 ∧ pb'.station_id = 99 ∧
      ∀ st ∈ (mReturnPowerbank 1 1 99 60
        ⟨[⟨1⟩], [⟨1, 1, "rented"⟩], [⟨1, 1, 1, 0, none, "active"⟩], [], 2, 1⟩).2.stations,
        st.id ≠ pb'.station_id := by
  have h := return_sets_unchecked_station 1 1 99 60
    ⟨[⟨1⟩], [⟨1, 1, "rented"⟩], [⟨1, 1, 1, 0, none, "active"⟩], [], 2, 1⟩
    ⟨1, 1, 1, 0, none, "active"⟩ (by decide) (by decide) rfl rfl rfl
    ⟨⟨1, 1, "rented"⟩, by decide, rfl⟩ (by decide)
  exact ⟨h.2.1, h.2.2⟩

/-! ## Variant B — `src/app/rentals/routes.py` (Flask blueprint)

The blueprint's `PowerBank` rows are toggled through an `is_available`
boolean.  The return endpoint `PATCH /rentals/<rental_id>` reads no user
identity at all: its only inputs are the rental id and the clock. -/

structure BPowerBank where
  id : Nat
  is_available : Bool
deriving DecidableEq

structure BRental where
  id : Nat
  user_id : Nat
  powerbank_id : Nat
  start_time : Nat
  end_time : Option Nat
  status : String
deriving DecidableEq

structure BState where
  powerbanks : List BPowerBank
  rentals : List BRental
deriving DecidableEq

inductive BReturnResult
  /-- HTTP 200 with the updated rental. -/
  | ok (r : BRental)
  /-- HTTP 404 `'Rental not found'`. -/
  | notFound
  /-- HTTP 400 `'Rental is not active'`. -/
  | notActive
deriving DecidableEq

/-- `PATCH /rentals/<rental_id>` (`return_rental`,
`src/app/rentals/routes.py` lines 57-85).  The rental is fetched by primary
key; if it is active it is completed, and the referenced power bank is marked
available only `if powerbank:` — a missing power bank row is silently
skipped. -/
def bReturnRental (rid now : Nat) (s : BState) : BReturnResult × BState :=
  match s.rentals.find? (fun r => r.id == rid) with
  | none => (.notFound, s)
  | some r =>
    if r.status ≠ "active" then (.notActive, s)
    else
      (.ok { r with end_time := some now, status := "completed" },
       { rentals := updateFirst (fun q => q.id == rid)
           (fun q => { q with end_time := some now, status := "completed" })
           s.rentals,
         powerbanks := updateFirst (fun pb => pb.id == r.powerbank_id)
           (fun pb => { pb with is_available := true }) s.powerbanks })

/-- A state of the blueprint variant with one power bank rented under an
active rental owned by user 1. -/
def bExState : BState :=
  { powerbanks := [⟨1, false⟩],
    rentals := [⟨1, 1, 1, 0, none, "active"⟩] }

/-- Claim C4 counterexample: in the Flask rentals blueprint the return
endpoint reads no user identity, so the call made on behalf of user 2
(`u = 2 ≠ 1 = r.userId`) does not fail at all: it completes user 1's active
rental and mutates the state. -/
theorem return_foreign_rental_succeeds :
    (bReturnRental 1 9 bExState).1 = .ok ⟨1, 1, 1, 0, some 9, "completed"⟩ ∧
    (bReturnRental 1 9 bExState).2 ≠ bExState := by decide

theorem bRental_find_by_id (rid : Nat) (s : BState) (r : BRental)
    (hnd : (s.rentals.map (·.id)).Nodup) (hmem : r ∈ s.rentals)
    (hid : r.id = rid) :
    s.rentals.find? (fun q => q.id == rid) = some r := by
  refine find?_eq_of_nodup_key (g := fun q : BRental => q.id) hnd hmem _
    (by simp [hid]) ?_
  intro x hx
  simp only [beq_iff_eq] at hx
  show x.id = r.id
  rw [hx, hid]

/-- Claim C9: in the Flask rentals blueprint, returning an active rental
whose `powerbank_id` matches no power bank row still succeeds: the rental
gets its end time and `"completed"` status while the power bank table is left
untouched. -/
theorem return_succeeds_without_powerbank (rid now : Nat) (s : BState)
    (r : BRental) (hnd : (s.rentals.map (·.id)).Nodup) (hmem : r ∈ s.rentals)
    (hid : r.id = rid) (hact : r.status = "active")
    (hnopb : ∀ pb ∈ s.powerbanks, pb.id ≠ r.powerbank_id) :
    (bReturnRental rid now s).1
      = .ok { r with end_time := some now, status := "completed" } ∧
    (bReturnRental rid now s).2.powerbanks = s.powerbanks ∧
    ∃ l₁ l₂, s.rentals = l₁ ++ r :: l₂ ∧
      (bReturnRental rid now s).2.rentals
        = l₁ ++ { r with end_time := some now, status := "completed" } :: l₂ := by
  have hfind := bRental_find_by_id rid s r hnd hmem hid
  obtain ⟨m₁, m₂, hm, hqa, hqneg⟩ := find?_decomp hfind
  have hcond : ¬ r.status ≠ "active" := by
    rw [hact]
    exact fun hh => hh rfl
  have hpbs : updateFirst (fun pb => pb.id == r.powerbank_id)
      (fun pb => { pb with is_available := true }) s.powerbanks
      = s.powerbanks := by
    refine updateFirst_eq_of_forall_neg _ _ ?_
    intro pb hpb
    simp only [beq_eq_false_iff_ne]
    exact hnopb pb hpb
  have hrs : updateFirst (fun q => q.id == rid)
      (fun q => { q with end_time := some now, status := "completed" }) s.rentals
      = m₁ ++ { r with end_time := some now, status := "completed" } :: m₂ := by
    rw [hm]; exact updateFirst_append_cons _ _ _ _ _ hqneg hqa
  simp only [bReturnRental, hfind, if_neg hcond]
  exact ⟨trivial, hpbs, m₁, m₂, hm, hrs⟩

/-- Witness for C9: an active rental referencing the absent power bank 7 is
completed while the power bank table stays empty. -/
theorem return_succeeds_without_powerbank_witness :
    (bReturnRental 1 9 ⟨[], [⟨1, 1, 7, 0, none, "active"⟩]⟩).1
      = .ok ⟨1, 1, 7, 0, some 9, "completed"⟩ ∧
    (bReturnRental 1 9 ⟨[], [⟨1, 1, 7, 0, none, "active"⟩]⟩).2.powerbanks = [] :=
  ⟨(return_succeeds_without_powerbank 1 9 _ ⟨1, 1, 7, 0, none, "active"⟩
      (by decide) (by decide) rfl rfl (by decide)).1,
   (return_succeeds_without_powerbank 1 9 _ ⟨1, 1, 7, 0, none, "active"⟩
      (by decide) (by decide) rfl rfl (by decide)).2.1⟩

/-! ## Variant F — `src/app/config.py` (FastAPI, stored station counters)

State: the module-level lists `users`, `stations`, `powerbanks`, `rentals`.
Stations store a `powerbanks_available` counter (an `int`, modelled as `ℤ`
since the code decrements it unconditionally).  Users are reduced to their
ids: the endpoints only read `current_user["id"]`. -/

structure FStation where
  id : Nat
  location : String
  powerbanks_available : Int
deriving DecidableEq

structure FPowerBank where
  id : Nat
  station_id : Nat
  status : String
deriving DecidableEq

structure FRental where
  id : Nat
  user_id : Nat
  powerbank_id : Nat
  start_time : Nat
  end_time : Option Nat
  status : String
deriving DecidableEq

structure FState where
  users : List Nat
  stations : List FStation
  powerbanks : List FPowerBank
  rentals : List FRental
deriving DecidableEq

inductive FRentResult
  /-- HTTP 200 with the new rental. -/
  | ok (r : FRental)
  /-- HTTP 404 `'Powerbank not found'`. -/
  | notFound
  /-- HTTP 400 `'Powerbank not available'`. -/
  | notAvailable
deriving DecidableEq

inductive FReturnResult
  /-- HTTP 200 with the completed rental. -/
  | ok (r : FRental)
  /-- HTTP 404 `'Rental not found'`. -/
  | notFound
  /-- HTTP 400 `'Rental is not active'`. -/
  | notActive
  /-- Unhandled `StopIteration` from `next(...)` on a missing power bank
  (HTTP 500); the rental dict was already mutated in memory. -/
  | serverError
deriving DecidableEq

/-- `POST /rentals` (`rent_powerbank`, `src/app/config.py` lines 142-165).
Appends a rental with id `len(rentals)+1`, flips the power bank to
`"rented"`, and decrements `powerbanks_available` of the power bank's station
if that station exists (`next(..., None)` followed by `if station:`). -/
def fRentPowerbank (uid pbid now : Nat) (s : FState) : FRentResult × FState :=
  match s.powerbanks.find? (fun pb => pb.id == pbid) with
  | none => (.notFound, s)
  | some pb =>
    if pb.status ≠ "available" then (.notAvailable, s)
    else
      let newRental : FRental :=
        ⟨s.rentals.length + 1, uid, pbid, now, none, "active"⟩
      (.ok newRental,
       { s with
           rentals := s.rentals ++ [newRental],
           powerbanks := updateFirst (fun q => q.id == pbid)
             (fun q => { q with status := "rented" }) s.powerbanks,
           stations := updateFirst (fun st => st.id == pb.station_id)
             (fun st =>
               { st with powerbanks_available := st.powerbanks_available - 1 })
             s.stations })

/-- `PUT /rentals/{rental_id}/return` (`return_powerbank`,
`src/app/config.py` lines 167-183).  The rental is looked up by id and owner
in one `next(...)`; the Python code mutates the rental dict before the power
bank lookup, so a missing power bank (`next` without default raising
`StopIteration`) leaves the rental already completed. -/
def fReturnPowerbank (uid rid now : Nat) (s : FState) : FReturnResult × FState :=
  match s.rentals.find? (fun r => r.id == rid && r.user_id == uid) with
  | none => (.notFound, s)
  | some r =>
    if r.status ≠ "active" then (.notActive, s)
    else
      let rentals' := updateFirst (fun q => q.id == rid && q.user_id == uid)
        (fun q => { q with end_time := some now, status := "completed" })
        s.rentals
      match s.powerbanks.find? (fun pb => pb.id == r.powerbank_id) with
      | none => (.serverError, { s with rentals := rentals' })
      | some pb =>
        (.ok { r with end_time := some now, status := "completed" },
         { s with
             rentals := rentals',
             powerbanks := updateFirst (fun q => q.id == r.powerbank_id)
               (fun q => { q with status := "available" }) s.powerbanks,
             stations := updateFirst (fun st => st.id == pb.station_id)
               (fun st =>
                 { st with powerbanks_available := st.powerbanks_available + 1 })
               s.stations })

/-- The seed data of `src/app/config.py` lines 60-70. -/
def initConfigState : FState :=
  { users := [1],
    stations := [⟨1, "Station A", 2⟩, ⟨2, "Station B", 1⟩],
    powerbanks := [⟨1, 1, "available"⟩, ⟨2, 1, "available"⟩, ⟨3, 2, "rented"⟩],
    rentals := [] }

/-- Number of `"available"` power banks stored at station `sid`. -/
def fAvailAt (pbs : List FPowerBank) (sid : Nat) : Nat :=
  pbs.countP (fun pb => pb.station_id == sid && pb.status == "available")

/-- The spec's station invariant: each station's stored counter equals the
number of available power banks at that station. -/
def stationCountInv (s : FState) : Prop :=
  ∀ st ∈ s.stations, st.powerbanks_available = (fAvailAt s.powerbanks st.id : Int)

/-- Per-power-bank active-rental count invariant for the config variant. -/
def fActiveRefsInv (s : FState) : Prop :=
  ∀ pb ∈ s.powerbanks,
    s.rentals.countP (fun r => r.powerbank_id == pb.id && r.status == "active")
      = if pb.status = "rented" then 1 else 0

/-- Claim C6 counterexample: in the seed data of `src/app/config.py`,
station 2 stores `powerbanks_available = 1` although its only power bank
(id 3) is `"rented"`, so the stored counter does not equal the count of
available power banks. -/
theorem station_counter_wrong_in_seed : ¬ stationCountInv initConfigState := by
  intro h
  have h2 := h ⟨2, "Station B", 1⟩ (by decide)
  exact absurd h2 (by decide)

theorem fRental_find_by_id_user (uid rid : Nat) (s : FState) (r : FRental)
    (hnd : (s.rentals.map (·.id)).Nodup) (hmem : r ∈ s.rentals)
    (hid : r.id = rid) (huser : r.user_id = uid) :
    s.rentals.find? (fun q => q.id == rid && q.user_id == uid) = some r := by
  refine find?_eq_of_nodup_key (g := fun q : FRental => q.id) hnd hmem _
    (by simp [hid, huser]) ?_
  intro x hx
  simp only [Bool.and_eq_true, beq_iff_eq] at hx
  show x.id = r.id
  rw [hx.1, hid]

/-- Claim C3: in `src/app/config.py`, calling return again on a rental the
caller owns that is already `"completed"` answers the 400
`'Rental is not active'` error and the whole state — the rental's end time
and status, the power banks, the stations — is returned unchanged. -/
theorem second_return_fails_unchanged (uid rid now : Nat) (s : FState)
    (r : FRental) (hnd : (s.rentals.map (·.id)).Nodup) (hmem : r ∈ s.rentals)
    (hid : r.id = rid) (huser : r.user_id = uid)
    (hdone : r.status = "completed") :
    fReturnPowerbank uid rid now s = (.notActive, s) := by
  have hfind := fRental_find_by_id_user uid rid s r hnd hmem hid huser
  have hcond : r.status ≠ "active" := by rw [hdone]; decide
  simp [fReturnPowerbank, hfind, hcond]

/-- Witness for C3: the second return of the already-completed rental 1
fails and changes nothing. -/
theorem second_return_fails_unchanged_witness :
    fReturnPowerbank 1 1 9
        ⟨[1], [⟨1, "Station A", 1⟩], [⟨1, 1, "available"⟩],
         [⟨1, 1, 1, 2, some 5, "completed"⟩]⟩
      = (.notActive,
         ⟨[1], [⟨1, "Station A", 1⟩], [⟨1, 1, "available"⟩],
          [⟨1, 1, 1, 2, some 5, "completed"⟩]⟩) :=
  second_return_fails_unchanged 1 1 9 _ ⟨1, 1, 1, 2, some 5, "completed"⟩
    (by decide) (by decide) rfl rfl rfl

theorem fAvailAt_flip_rented (k₁ k₂ : List FPowerBank) (pb : FPowerBank)
    (hav : pb.status = "available") (x : Nat) :
    fAvailAt (k₁ ++ pb :: k₂) x
      = fAvailAt (k₁ ++ { pb with status := "rented" } :: k₂) x
        + (if pb.station_id = x then 1 else 0) := by
  unfold fAvailAt
  rw [countP_append_cons, countP_append_cons]
  by_cases hx : pb.station_id = x
  · simp [hx, hav]
  · simp [hx]

theorem fAvailAt_flip_available (k₁ k₂ : List FPowerBank) (pb : FPowerBank)
    (hrent : pb.status = "rented") (x : Nat) :
    fAvailAt (k₁ ++ { pb with status := "available" } :: k₂) x
      = fAvailAt (k₁ ++ pb :: k₂) x + (if pb.station_id = x then 1 else 0) := by
  unfold fAvailAt
  rw [countP_append_cons, countP_append_cons]
  by_cases hx : pb.station_id = x
  · simp [hx, hrent]
  · simp [hx]

/-- Adjusting one station's counter by `d` keeps every counter equal to the
available count when the availability at that station changed by exactly `d`
and nowhere else. -/
theorem stationInv_update (stations : List FStation)
    (pbs pbs' : List FPowerBank) (sid : Nat) (g : Int → Int) (d : Int)
    (hg : ∀ v, g v = v + d)
    (hnds : (stations.map (·.id)).Nodup)
    (hinv : ∀ st ∈ stations, st.powerbanks_available = (fAvailAt pbs st.id : Int))
    (hother : ∀ x, x ≠ sid → fAvailAt pbs' x = fAvailAt pbs x)
    (hsid : (fAvailAt pbs' sid : Int) = (fAvailAt pbs sid : Int) + d) :
    ∀ st ∈ updateFirst (fun st => st.id == sid)
        (fun st => { st with powerbanks_available := g st.powerbanks_available })
        stations,
      st.powerbanks_available = (fAvailAt pbs' st.id : Int) := by
  cases hf : stations.find? (fun st => st.id == sid) with
  | none =>
    have hneg : ∀ st ∈ stations, (fun st : FStation => st.id == sid) st = false := by
      intro st hst
      have := List.find?_eq_none.mp hf st hst
      simpa using this
    rw [updateFirst_eq_of_forall_neg _ _ hneg]
    intro st hst
    have hne : st.id ≠ sid := by
      have := hneg st hst
      simpa using this
    rw [hother st.id hne]
    exact hinv st hst
  | some stX =>
    obtain ⟨m₁, m₂, hm, hma, hmneg⟩ := find?_decomp hf
    have hidX : stX.id = sid := by simpa using hma
    have hupd : updateFirst (fun st => st.id == sid)
        (fun st => { st with powerbanks_available := g st.powerbanks_available })
        stations
        = m₁ ++ { stX with powerbanks_available := g stX.powerbanks_available }
            :: m₂ := by
      rw [hm]; exact updateFirst_append_cons _ _ _ _ _ hmneg hma
    rw [hupd]
    intro st hst
    rcases List.mem_append.mp hst with hmem | hmem
    · have hne : st.id ≠ sid := by
        have := hmneg st hmem
        simpa using this
      rw [hother st.id hne]
      exact hinv st (by rw [hm]; exact List.mem_append_left _ hmem)
    · rcases List.mem_cons.mp hmem with rfl | hmem'
      · show g stX.powerbanks_available = (fAvailAt pbs' stX.id : Int)
        rw [hg, hidX, hsid,
          hinv stX (by rw [hm]; exact List.mem_append_right _ (List.mem_cons_self _ _)), hidX]
      · have hndm := hnds
        rw [hm] at hndm
        obtain ⟨_, hne₂⟩ := nodup_key_of_decomp (g := fun q : FStation => q.id) hndm
        have hne : st.id ≠ sid := by
          rw [← hidX]
          exact hne₂ st hmem'
        rw [hother st.id hne]
        exact hinv st (by rw [hm]; exact List.mem_append_right _ (List.mem_cons_of_mem _ hmem'))

/-- Claim C6 (amended): in `src/app/config.py`, starting from any state with
duplicate-free station and power-bank ids in which every station counter
equals its available count and every power bank carries exactly one active
rental when `"rented"` and none otherwise, both `rent_powerbank` and
`return_powerbank` preserve the counter equality. -/
theorem station_counter_preserved (uid a now : Nat) (s s' : FState)
    (hnds : (s.stations.map (·.id)).Nodup)
    (hrefs : fActiveRefsInv s)
    (hinv : stationCountInv s)
    (hstep : s' = (fRentPowerbank uid a now s).2 ∨
             s' = (fReturnPowerbank uid a now s).2) :
    stationCountInv s' := by
  rcases hstep with rfl | rfl
  · cases hf : s.powerbanks.find? (fun pb => pb.id == a) with
    | none => simp only [fRentPowerbank, hf]; exact hinv
    | some pb =>
      rcases eq_or_ne pb.status "available" with hav | hav
      · have hifcond : ¬(pb.status ≠ "available") := fun hh => hh hav
        obtain ⟨k₁, k₂, hk, hka, hkneg⟩ := find?_decomp hf
        have hupd : updateFirst (fun q => q.id == a)
            (fun q => { q with status := "rented" }) s.powerbanks
            = k₁ ++ { pb with status := "rented" } :: k₂ := by
          rw [hk]; exact updateFirst_append_cons _ _ _ _ _ hkneg hka
        simp only [fRentPowerbank, hf, if_neg hifcond]
        intro st hst
        refine stationInv_update s.stations s.powerbanks
          (updateFirst (fun q => q.id == a)
            (fun q => { q with status := "rented" }) s.powerbanks) pb.station_id
          (fun v => v - 1) (-1) (fun v => by ring) hnds hinv ?_ ?_ st hst
        · intro x hx
          rw [hupd, hk]
          have hflip := fAvailAt_flip_rented k₁ k₂ pb hav x
          rw [if_neg (fun hh => hx hh.symm)] at hflip
          omega
        · rw [hupd, hk]
          have hflip := fAvailAt_flip_rented k₁ k₂ pb hav pb.station_id
          rw [if_pos rfl] at hflip
          omega
      · simp only [fRentPowerbank, hf, if_pos hav]
        exact hinv
  · cases hf : s.rentals.find? (fun r => r.id == a && r.user_id == uid) with
    | none => simp only [fReturnPowerbank, hf]; exact hinv
    | some r =>
      rcases eq_or_ne r.status "active" with hact | hact
      · have hifcond : ¬(r.status ≠ "active") := fun hh => hh hact
        cases hpf : s.powerbanks.find? (fun pb => pb.id == r.powerbank_id) with
        | none =>
          simp only [fReturnPowerbank, hf, if_neg hifcond, hpf]
          exact hinv
        | some pbX =>
          obtain ⟨k₁, k₂, hk, hka, hkneg⟩ := find?_decomp hpf
          have hidX : pbX.id = r.powerbank_id := by simpa using hka
          have hrent : pbX.status = "rented" := by
            have hcnt := hrefs pbX (by
              rw [hk]; exact List.mem_append_right _ (List.mem_cons_self _ _))
            have hpos : 0 < s.rentals.countP
                (fun q => q.powerbank_id == pbX.id && q.status == "active") := by
              rw [List.countP_pos_iff]
              refine ⟨r, List.mem_of_find?_eq_some hf, ?_⟩
              simp [hidX, hact]
            by_contra hne
            rw [if_neg hne] at hcnt
            omega
          have hupd : updateFirst (fun q => q.id == r.powerbank_id)
              (fun q => { q with status := "available" }) s.powerbanks
              = k₁ ++ { pbX with status := "available" } :: k₂ := by
            rw [hk]; exact updateFirst_append_cons _ _ _ _ _ hkneg hka
          simp only [fReturnPowerbank, hf, if_neg hifcond, hpf]
          intro st hst
          refine stationInv_update s.stations s.powerbanks
            (updateFirst (fun q => q.id == r.powerbank_id)
              (fun q => { q with status := "available" }) s.powerbanks)
            pbX.station_id
            (fun v => v + 1) 1 (fun v => rfl) hnds hinv ?_ ?_ st hst
          · intro x hx
            rw [hupd, hk]
            have hflip := fAvailAt_flip_available k₁ k₂ pbX hrent x
            rw [if_neg (fun hh => hx hh.symm)] at hflip
            omega
          · rw [hupd, hk]
            have hflip := fAvailAt_flip_available k₁ k₂ pbX hrent pbX.station_id
            rw [if_pos rfl] at hflip
            omega
      · simp only [fReturnPowerbank, hf, if_pos hact]
        exact hinv

/-- Witness for the amended C6: renting power bank 1 from a well-formed
one-station state keeps the stored counter equal to the available count. -/
theorem station_counter_preserved_witness :
    stationCountInv
        ⟨[1], [⟨1, "Station A", 1⟩], [⟨1, 1, "available"⟩], []⟩ ∧
    stationCountInv
        (fRentPowerbank 1 1 0
          ⟨[1], [⟨1, "Station A", 1⟩], [⟨1, 1, "available"⟩], []⟩).2 :=
  ⟨fun st hst => by fin_cases hst; decide,
   station_counter_preserved 1 1 0 _ _ (by decide)
     (fun pb hpb => by fin_cases hpb; decide)
     (fun st hst => by fin_cases hst; decide)
     (Or.inl rfl)⟩

theorem find?_append_of_forall_neg {α : Type} (p : α → Bool) {l₁ : List α}
    (l₂ : List α) (h : ∀ x ∈ l₁, p x = false) :
    (l₁ ++ l₂).find? p = l₂.find? p := by
  induction l₁ with
  | nil => rfl
  | cons x xs ih =>
    have hx : p x = false := h x (List.mem_cons_self x xs)
    rw [List.cons_append, List.find?_cons_of_neg _ (by simp [hx])]
    exact ih fun y hy => h y (List.mem_cons_of_mem x hy)

theorem fPowerBank_find_by_id (pbid : Nat) (s : FState) (pb : FPowerBank)
    (hnd : (s.powerbanks.map (·.id)).Nodup) (hmem : pb ∈ s.powerbanks)
    (hid : pb.id = pbid) :
    s.powerbanks.find? (fun q => q.id == pbid) = some pb := by
  refine find?_eq_of_nodup_key (g := fun q : FPowerBank => q.id) hnd hmem _
    (by simp [hid]) ?_
  intro x hx
  simp only [beq_iff_eq] at hx
  show x.id = pb.id
  rw [hx, hid]

/-- Claim C8: in `src/app/config.py`, renting an available power bank on
behalf of an existing user creates exactly one new rental — appended to the
rental list with status `"active"`, `start_time = now` and no end time —
flips exactly that power bank to `"rented"`, decrements exactly its owning
station's counter by one, and touches no other record. -/
theorem rent_available_effect (uid now : Nat) (s : FState)
    (pb : FPowerBank) (st : FStation)
    (hndp : (s.powerbanks.map (·.id)).Nodup)
    (hnds : (s.stations.map (·.id)).Nodup)
    (huser : uid ∈ s.users)
    (hmem : pb ∈ s.powerbanks) (hav : pb.status = "available")
    (hstmem : st ∈ s.stations) (hstid : st.id = pb.station_id) :
    (fRentPowerbank uid pb.id now s).1
      = .ok ⟨s.rentals.length + 1, uid, pb.id, now, none, "active"⟩ ∧
    (fRentPowerbank uid pb.id now s).2.rentals
      = s.rentals ++ [⟨s.rentals.length + 1, uid, pb.id, now, none, "active"⟩] ∧
    (fRentPowerbank uid pb.id now s).2.users = s.users ∧
    (∃ k₁ k₂, s.powerbanks = k₁ ++ pb :: k₂ ∧
      (fRentPowerbank uid pb.id now s).2.powerbanks
        = k₁ ++ { pb with status := "rented" } :: k₂) ∧
    (∃ m₁ m₂, s.stations = m₁ ++ st :: m₂ ∧
      (fRentPowerbank uid pb.id now s).2.stations
        = m₁ ++ { st with powerbanks_available := st.powerbanks_available - 1 }
            :: m₂) := by
  have hfind := fPowerBank_find_by_id pb.id s pb hndp hmem rfl
  have hifcond : ¬(pb.status ≠ "available") := fun hh => hh hav
  obtain ⟨k₁, k₂, hk, hka, hkneg⟩ := find?_decomp hfind
  have hupd : updateFirst (fun q => q.id == pb.id)
      (fun q => { q with status := "rented" }) s.powerbanks
      = k₁ ++ { pb with status := "rented" } :: k₂ := by
    rw [hk]; exact updateFirst_append_cons _ _ _ _ _ hkneg hka
  have hstfind : s.stations.find? (fun q => q.id == pb.station_id) = some st := by
    refine find?_eq_of_nodup_key (g := fun q : FStation => q.id) hnds hstmem _
      (by simp [hstid]) ?_
    intro x hx
    simp only [beq_iff_eq] at hx
    show x.id = st.id
    rw [hx, hstid]
  obtain ⟨m₁, m₂, hm, hma, hmneg⟩ := find?_decomp hstfind
  have hstupd : updateFirst (fun q => q.id == pb.station_id)
      (fun q => { q with powerbanks_available := q.powerbanks_available - 1 })
      s.stations
      = m₁ ++ { st with powerbanks_available := st.powerbanks_available - 1 }
          :: m₂ := by
    rw [hm]; exact updateFirst_append_cons _ _ _ _ _ hmneg hma
  simp only [fRentPowerbank, hfind, if_neg hifcond]
  exact ⟨trivial, trivial, trivial, ⟨k₁, k₂, hk, hupd⟩, ⟨m₁, m₂, hm, hstupd⟩⟩

/-- Witness for C8 in a one-station, one-power-bank state. -/
theorem rent_available_effect_witness :
    (fRentPowerbank 1 1 4
        ⟨[1], [⟨1, "Station A", 1⟩], [⟨1, 1, "available"⟩], []⟩).1
      = .ok ⟨1, 1, 1, 4, none, "active"⟩ ∧
    (fRentPowerbank 1 1 4
        ⟨[1], [⟨1, "Station A", 1⟩], [⟨1, 1, "available"⟩], []⟩).2.rentals
      = [⟨1, 1, 1, 4, none, "active"⟩] :=
  ⟨(rent_available_effect 1 4 _ ⟨1, 1, "available"⟩ ⟨1, "Station A", 1⟩
      (by decide) (by decide) (by decide) (by decide) rfl (by decide) rfl).1,
   (rent_available_effect 1 4 _ ⟨1, 1, "available"⟩ ⟨1, "Station A", 1⟩
      (by decide) (by decide) (by decide) (by decide) rfl (by decide) rfl).2.1⟩

/-- Claim C5: in `src/app/config.py`, renting an available power bank at
time `t1` and returning the created rental at a later time `t2` succeeds,
restores the power bank's status to `"available"`, and produces a rental
whose end time is set to `t2`, strictly greater than its start time. -/
theorem rent_then_return_roundtrip (uid t1 t2 : Nat) (s : FState)
    (pb : FPowerBank) (hndp : (s.powerbanks.map (·.id)).Nodup)
    (hmem : pb ∈ s.powerbanks) (hav : pb.status = "available")
    (hfresh : ∀ q ∈ s.rentals, q.id ≠ s.rentals.length + 1)
    (ht : t1 < t2) :
    (fRentPowerbank uid pb.id t1 s).1
      = .ok ⟨s.rentals.length + 1, uid, pb.id, t1, none, "active"⟩ ∧
    (fReturnPowerbank uid (s.rentals.length + 1) t2
        (fRentPowerbank uid pb.id t1 s).2).1
      = .ok ⟨s.rentals.length + 1, uid, pb.id, t1, some t2, "completed"⟩ ∧
    t1 < t2 ∧
    ∃ pb' ∈ (fReturnPowerbank uid (s.rentals.length + 1) t2
        (fRentPowerbank uid pb.id t1 s).2).2.powerbanks,
      pb'.id = pb.id ∧ pb'.status = "available" := by
  have hfind := fPowerBank_find_by_id pb.id s pb hndp hmem rfl
  have hifcond : ¬(pb.status ≠ "available") := fun hh => hh hav
  obtain ⟨k₁, k₂, hk, hka, hkneg⟩ := find?_decomp hfind
  have hupd : updateFirst (fun q => q.id == pb.id)
      (fun q => { q with status := "rented" }) s.powerbanks
      = k₁ ++ { pb with status := "rented" } :: k₂ := by
    rw [hk]; exact updateFirst_append_cons _ _ _ _ _ hkneg hka
  have hres1 : (fRentPowerbank uid pb.id t1 s).1
      = .ok ⟨s.rentals.length + 1, uid, pb.id, t1, none, "active"⟩ := by
    simp only [fRentPowerbank, hfind, if_neg hifcond]
  have hstate1 : (fRentPowerbank uid pb.id t1 s).2
      = { s with
            rentals := s.rentals
              ++ [⟨s.rentals.length + 1, uid, pb.id, t1, none, "active"⟩],
            powerbanks := updateFirst (fun q => q.id == pb.id)
              (fun q => { q with status := "rented" }) s.powerbanks,
            stations := updateFirst (fun q => q.id == pb.station_id)
              (fun q =>
                { q with powerbanks_available := q.powerbanks_available - 1 })
              s.stations } := by
    simp only [fRentPowerbank, hfind, if_neg hifcond]
  have hrfind : ((fRentPowerbank uid pb.id t1 s).2).rentals.find?
      (fun q => q.id == s.rentals.length + 1 && q.user_id == uid)
      = some ⟨s.rentals.length + 1, uid, pb.id, t1, none, "active"⟩ := by
    rw [hstate1]
    show (s.rentals ++ [_]).find? _ = _
    rw [find?_append_of_forall_neg]
    · exact List.find?_cons_of_pos _ (by simp)
    · intro q hq
      have hqid : (q.id == s.rentals.length + 1) = false := by
        simp [hfresh q hq]
      simp [hqid]
  have hpbfind : ((fRentPowerbank uid pb.id t1 s).2).powerbanks.find?
      (fun q => q.id == pb.id) = some { pb with status := "rented" } := by
    rw [hstate1]
    show (updateFirst _ _ s.powerbanks).find? _ = _
    rw [hupd, find?_append_of_forall_neg _ _ hkneg]
    exact List.find?_cons_of_pos _ (by simp)
  have hifcond2 : ¬(("active" : String) ≠ "active") := fun hh => hh rfl
  have hpbs1 : (fRentPowerbank uid pb.id t1 s).2.powerbanks
      = updateFirst (fun q => q.id == pb.id)
          (fun q => { q with status := "rented" }) s.powerbanks := by
    rw [hstate1]
  refine ⟨hres1, ?_, ht, ?_⟩
  · simp only [fReturnPowerbank, hrfind, if_neg hifcond2, hpbfind]
  · have hpbs2 : (fReturnPowerbank uid (s.rentals.length + 1) t2
        (fRentPowerbank uid pb.id t1 s).2).2.powerbanks
        = updateFirst (fun q => q.id == pb.id)
            (fun q => { q with status := "available" })
            ((fRentPowerbank uid pb.id t1 s).2.powerbanks) := by
      simp only [fReturnPowerbank, hrfind, if_neg hifcond2, hpbfind]
    have hpbs3 : (fReturnPowerbank uid (s.rentals.length + 1) t2
        (fRentPowerbank uid pb.id t1 s).2).2.powerbanks
        = k₁ ++ ({ pb with status := "available" } : FPowerBank) :: k₂ := by
      rw [hpbs2, hpbs1, hupd]
      exact updateFirst_append_cons _ _ _ _ _ hkneg (by simp)
    refine ⟨{ pb with status := "available" }, ?_, rfl, rfl⟩
    rw [hpbs3]
    exact List.mem_append_right _ (List.mem_cons_self _ _)

/-- Witness for C5: rent at time 10, return at time 70; the power bank is
available again and the rental runs from 10 to 70. -/
theorem rent_then_return_roundtrip_witness :
    (fRentPowerbank 1 1 10
        ⟨[1], [⟨1, "Station A", 1⟩], [⟨1, 1, "available"⟩], []⟩).1
      = .ok ⟨1, 1, 1, 10, none, "active"⟩ ∧
    (fReturnPowerbank 1 1 70
        (fRentPowerbank 1 1 10
          ⟨[1], [⟨1, "Station A", 1⟩], [⟨1, 1, "available"⟩], []⟩).2).1
      = .ok ⟨1, 1, 1, 10, some 70, "completed"⟩ :=
  ⟨(rent_then_return_roundtrip 1 10 70
      ⟨[1], [⟨1, "Station A", 1⟩], [⟨1, 1, "available"⟩], []⟩ ⟨1, 1, "available"⟩
      (by decide) (by decide) rfl (by decide) (by decide)).1,
   (rent_then_return_roundtrip 1 10 70
      ⟨[1], [⟨1, "Station A", 1⟩], [⟨1, 1, "available"⟩], []⟩ ⟨1, 1, "available"⟩
      (by decide) (by decide) rfl (by decide) (by decide)).2.1⟩
